import Mathlib

/-!
Shallow embedding of the FairFound e-commerce backend core
(cart / checkout / pricing / inventory logic).

The repository contains the domain logic twice: once in the consolidated
`ecommerce` app and once spread over per-entity apps (`carts`, `promotions`,
`inventory`, `variants`, ...).  Both variants are embedded here, with
`_ecommerce` naming the consolidated implementation and `_carts`,
`_promotions`, `_inventory` naming the per-app implementations.

Monetary amounts (Python `Decimal`) are modelled as `ℚ`: all decimal
operations appearing in the source (addition, multiplication, division by
100 of 2-decimal values, `min`, quantization to two places) are exact at
the precision Python's default `Decimal` context provides for these field
sizes, so `ℚ` is a faithful model.  Integer columns (`qty`, `stock`,
`change`) are Django `IntegerField`s and are modelled as `ℤ`.
-/

namespace FFEcom

/-- Status of a cart, `ecommerce/models.py` `Cart.Status` and
`carts/models.py` `CartStatus`: `open`, `converted`, `abandoned`. -/
inductive CartStatus
  | statusOpen
  | statusConverted
  | statusAbandoned
deriving Repr, DecidableEq, Inhabited

/-- A purchasable SKU, from `ecommerce/models.py` `Variant` (identical to
`variants/models.py` `Variant`): unique `sku`, `price`, optional
`sale_price`, integer `stock`.  Variants are identified by their position
in the world's variant list (modelling the primary key / foreign keys). -/
structure Variant where
  sku : String
  price : ℚ
  sale_price : Option ℚ
  stock : ℤ
deriving Repr, DecidableEq, Inhabited

/-- Python property `Variant.effective_price` in `ecommerce/models.py`:
`return self.sale_price if self.sale_price else self.price`.  Python
truthiness of a `Decimal` is falsity exactly at zero, and `None` is falsy,
so the sale price is used when it is present AND non-zero. -/
def Variant.effective_price (v : Variant) : ℚ :=
  match v.sale_price with
  | some sp => if sp = 0 then v.price else sp
  | none => v.price

/-- Price snapshot taken by `carts/views.py` `add_item` (line 41):
`variant.sale_price if variant.sale_price is not None else variant.price` —
an `is not None` test, not a truthiness test. -/
def Variant.carts_price_at_add (v : Variant) : ℚ :=
  match v.sale_price with
  | some sp => sp
  | none => v.price

/-- A cart line, from `ecommerce/models.py` `CartItem` / `carts/models.py`
`CartItem`: a variant reference, a quantity and the `price_at_add`
snapshot. -/
structure CartItem where
  variant : ℕ
  qty : ℤ
  price_at_add : ℚ
deriving Repr, DecidableEq, Inhabited

/-- Python property `CartItem.line_total`: `price_at_add * qty`. -/
def CartItem.line_total (it : CartItem) : ℚ :=
  it.price_at_add * (it.qty : ℚ)

/-- A shopping cart: status plus its items, from `Cart` with its related
`items`. -/
structure Cart where
  status : CartStatus
  items : List CartItem
deriving Repr, DecidableEq, Inhabited

/-- A ledger entry, from `InventoryMovement`: variant reference, signed
`change`, `reason` tag (metadata blob omitted — it is opaque JSON). -/
structure Movement where
  variant : ℕ
  change : ℤ
  reason : String
deriving Repr, DecidableEq, Inhabited

/-- A line of a completed order, from `OrderItem`. -/
structure OrderItem where
  variant : ℕ
  qty : ℤ
  unit_price : ℚ
  line_total : ℚ
deriving Repr, DecidableEq, Inhabited

/-- A completed order, from `Order` (identity, addresses, payment
reference and currency are opaque to the verified logic and omitted). -/
structure Order where
  subtotal : ℚ
  discount_total : ℚ
  shipping_total : ℚ
  tax_total : ℚ
  grand_total : ℚ
  items : List OrderItem
deriving Repr, DecidableEq, Inhabited

/-- The mutable store visible to the checkout/cart endpoints for one
customer: the variant table, the customer's carts, the orders and the
movement ledger. -/
structure World where
  variants : List Variant
  carts : List Cart
  orders : List Order
  movements : List Movement
deriving Repr, DecidableEq, Inhabited

/-! ### Pricing rules and promotions -/

/-- `PricingRule.RuleType`: `percentage` or `fixed`. -/
inductive RuleType
  | percentage
  | fixed
deriving Repr, DecidableEq, Inhabited

/-- `PricingRule` from `pricing_rules/models.py` / `ecommerce/models.py`:
discount kind, value, active flag and optional activity window.  The
window bounds are modelled as integer timestamps. -/
structure PricingRule where
  type : RuleType
  value : ℚ
  active : Bool
  starts_at : Option ℤ
  ends_at : Option ℤ
deriving Repr, DecidableEq, Inhabited

/-- `PricingRule.is_active` from `pricing_rules/models.py`: inactive flag,
or `now` before `starts_at`, or `now` after `ends_at`, each returns
`False`; `datetime` values are always truthy so the `if self.starts_at`
guards are `is-present` tests. -/
def PricingRule.is_active (r : PricingRule) (now : ℤ) : Bool :=
  if !r.active then false
  else if (match r.starts_at with | some s => decide (now < s) | none => false : Bool) then false
  else if (match r.ends_at with | some e => decide (e < now) | none => false : Bool) then false
  else true

/-- `Promotion` from `promotions/models.py` / `ecommerce/models.py`: a
code bound to one rule, with active flag and usage accounting. -/
structure Promotion where
  code : String
  rule : PricingRule
  active : Bool
  usage_limit : Option ℤ
  used_count : ℤ
deriving Repr, DecidableEq, Inhabited

/-- Python property `Promotion.is_available` in `ecommerce/models.py`:
not active gives `False`; `if self.usage_limit and self.used_count >=
self.usage_limit` gives `False` — note `usage_limit` participates by
truthiness, so a limit of `0` (falsy) imposes no bound, like `None`. -/
def Promotion.is_available (p : Promotion) : Bool :=
  if !p.active then false
  else if (match p.usage_limit with
           | some l => decide (l ≠ 0) && decide (p.used_count ≥ l)
           | none => false : Bool) then false
  else true

/-! ### Decimal quantization

`Decimal.quantize(Decimal('0.01'))` with the default context rounds to two
decimal places with ROUND_HALF_EVEN (banker's rounding). -/

/-- Round a rational to the nearest integer, ties to the even integer —
the ROUND_HALF_EVEN mode of Python's default `Decimal` context. -/
def halfEvenRound (x : ℚ) : ℤ :=
  let f := ⌊x⌋
  let r := x - (f : ℚ)
  if r < 1/2 then f
  else if 1/2 < r then f + 1
  else if f % 2 = 0 then f else f + 1

/-- `Decimal.quantize(Decimal('0.01'))`: round to two decimal places,
half to even. -/
def quantize2 (x : ℚ) : ℚ :=
  ((halfEvenRound (x * 100) : ℤ) : ℚ) / 100

/-! ### Discount computation, three copies in the source -/

/-- Discount computation of `ecommerce/views.py` `CartViewSet.apply_promotion`
(lines 371-377): percentage gives `subtotal * (rule.value / 100)` with NO
quantization; otherwise `min(rule.value, subtotal)`. -/
def discount_ecommerce (r : PricingRule) (subtotal : ℚ) : ℚ :=
  if r.type = RuleType.percentage then subtotal * (r.value / 100)
  else min r.value subtotal

/-- Discount computation of `promotions/views.py`
`PromotionViewSet.apply_promotion` (lines 44-48): fixed gives
`min(value, subtotal)`; else `(subtotal * (value / 100)).quantize('0.01')`. -/
def discount_promotions (r : PricingRule) (subtotal : ℚ) : ℚ :=
  if r.type = RuleType.fixed then min r.value subtotal
  else quantize2 (subtotal * (r.value / 100))

/-- Discount computation of `carts/views.py` `CartViewSet.apply_promotion`
(lines 81-85): fixed gives `min(value, subtotal)`; else
`(subtotal * (value / 100)).quantize('0.01')`. -/
def discount_carts (r : PricingRule) (subtotal : ℚ) : ℚ :=
  if r.type = RuleType.fixed then min r.value subtotal
  else quantize2 (subtotal * (r.value / 100))

/-! ### Promotion preview endpoints -/

/-- Case-insensitive string match, modelling the Django `code__iexact`
lookup: both sides compared after lowercasing. -/
def iexact (a b : String) : Bool :=
  a.data.map Char.toLower == b.data.map Char.toLower

/-- Outcome of a promotion-preview call: an HTTP error status, or a
preview of `(subtotal, discount, total after discount)`. -/
inductive PromoResp
  | errorResp (httpStatus : ℕ)
  | preview (subtotal discount grand : ℚ)
deriving Repr, DecidableEq

/-- `ecommerce/views.py` `CartViewSet.apply_promotion` (lines 351-385):
a missing code fails serializer validation (400); `get_object_or_404`
with `code__iexact` raises 404 when no promotion matches
case-insensitively; an unavailable promotion gives 400; otherwise the
discount of `discount_ecommerce` is previewed against the cart subtotal
(passed here as an argument; in the source it is `cart.total`). -/
def apply_promotion_ecommerce (promos : List Promotion) (code : Option String)
    (subtotal : ℚ) : PromoResp :=
  match code with
  | none => .errorResp 400
  | some c =>
    match promos.find? (fun p => iexact p.code c) with
    | none => .errorResp 404
    | some p =>
      if !p.is_available then .errorResp 400
      else
        let discount := discount_ecommerce p.rule subtotal
        .preview subtotal discount (subtotal - discount)

/-- `promotions/views.py` `PromotionViewSet.apply_promotion` (lines
26-55): looks up `Promotion.objects.filter(code__iexact=code,
active=True).first()`; if no match or the bound rule is not active,
responds 400 "Promotion not found or inactive"; otherwise previews the
discount of `discount_promotions` over the payload subtotal. -/
def apply_promotion_promotions (promos : List Promotion) (now : ℤ)
    (code : Option String) (subtotal : ℚ) : PromoResp :=
  let c := code.getD ""
  match promos.find? (fun p => p.active && iexact p.code c) with
  | none => .errorResp 400
  | some p =>
    if !p.rule.is_active now then .errorResp 400
    else
      let discount := discount_promotions p.rule subtotal
      .preview subtotal discount (subtotal - discount)

/-- `carts/views.py` `CartViewSet.apply_promotion` (lines 69-86): same
lookup and `rule.is_active()` gate as the promotions app, previewing the
discount of `discount_carts` over the open cart's subtotal. -/
def apply_promotion_carts (promos : List Promotion) (now : ℤ)
    (code : Option String) (subtotal : ℚ) : PromoResp :=
  let c := code.getD ""
  match promos.find? (fun p => p.active && iexact p.code c) with
  | none => .errorResp 400
  | some p =>
    if !p.rule.is_active now then .errorResp 400
    else
      let discount := discount_carts p.rule subtotal
      .preview subtotal discount (subtotal - discount)

/-! ### Cart operations -/

/-- Replace the variant at index `i` using `f`; out-of-range indices leave
the list unchanged.  Models saving a mutated `Variant` row back to its
table. -/
def updateVariant (vs : List Variant) (i : ℕ) (f : Variant → Variant) : List Variant :=
  match vs[i]? with
  | some v => vs.set i (f v)
  | none => vs

/-- Index of the first cart item referencing variant `vidx`, modelling
`CartItem.objects.filter(cart=cart, variant=variant).first()` /
`get_or_create` lookup. -/
def findItem : List CartItem → ℕ → Option ℕ
  | [], _ => none
  | it :: rest, vidx =>
      if it.variant = vidx then some 0
      else (findItem rest vidx).map (· + 1)

/-- Errors surfaced by the add-item endpoints. -/
inductive AddError
  | invalidQty
  | variantNotFound
  | insufficientStock (available requestedTotal : ℤ)
deriving Repr, DecidableEq

/-- `ecommerce/views.py` `CartViewSet.add_item` (lines 283-321): the
serializer requires an integer `qty ≥ 1`; the variant is fetched with
`get_object_or_404`; under a row lock, the total quantity is the request
plus any existing cart item's quantity; if `variant.stock < total_qty`
the call fails with the insufficient-stock message; otherwise the
existing item's quantity is set to the total, or a new item is created
with `price_at_add = variant.effective_price`.  The function returns the
updated item list of the open cart. -/
def add_item_ecommerce (vs : List Variant) (items : List CartItem)
    (vidx : ℕ) (qty : ℤ) : Except AddError (List CartItem) :=
  if qty < 1 then .error .invalidQty
  else
    match vs[vidx]? with
    | none => .error .variantNotFound
    | some v =>
      match findItem items vidx with
      | some j =>
          let existing := items.getD j default
          let total := qty + existing.qty
          if v.stock < total then .error (.insufficientStock v.stock total)
          else .ok (items.set j { existing with qty := total })
      | none =>
          let total := qty
          if v.stock < total then .error (.insufficientStock v.stock total)
          else .ok (items ++ [⟨vidx, qty, v.effective_price⟩])

/-- `carts/views.py` `CartViewSet.add_item` (lines 31-46):
`CartItem.objects.get_or_create(cart, variant, defaults=qty, price_at_add
= sale_price if not None else price)`; when the item already exists,
`item.qty += qty`.  There is NO stock check and no lower bound on the
quantity. -/
def add_item_carts (vs : List Variant) (items : List CartItem)
    (vidx : ℕ) (qty : ℤ) : Except AddError (List CartItem) :=
  match vs[vidx]? with
  | none => .error .variantNotFound
  | some v =>
    match findItem items vidx with
    | some j =>
        let existing := items.getD j default
        .ok (items.set j { existing with qty := existing.qty + qty })
    | none =>
        .ok (items ++ [⟨vidx, qty, v.carts_price_at_add⟩])

/-! ### Checkout -/

/-- Index of the first cart whose status is `open`, modelling
`Cart.objects.filter(customer, status=open).first()` /
`get_object_or_404(Cart, customer, status=open)`. -/
def findOpenCart : List Cart → Option ℕ
  | [] => none
  | c :: rest =>
      if c.status = CartStatus.statusOpen then some 0
      else (findOpenCart rest).map (· + 1)

/-- `ecommerce/views.py` `CartViewSet._get_or_create_cart` (lines
256-274): return the customer's first open cart, creating a fresh empty
open cart when none exists.  Yields the cart's index and the possibly
extended cart list. -/
def get_or_create_cart (cs : List Cart) : ℕ × List Cart :=
  match findOpenCart cs with
  | some i => (i, cs)
  | none => (cs.length, cs ++ [⟨CartStatus.statusOpen, []⟩])

/-- First stock shortfall among the cart items, in item order, modelling
the validation loop of `ecommerce/views.py` `checkout` (lines 415-422):
returns the offending variant's `(sku, stock)` when some item has
`variant.stock < cart_item.qty`. -/
def validateStock (vs : List Variant) : List CartItem → Option (String × ℤ)
  | [] => none
  | it :: rest =>
      if (vs.getD it.variant default).stock < it.qty then
        some ((vs.getD it.variant default).sku, (vs.getD it.variant default).stock)
      else validateStock vs rest

/-- Loop body sequence of the `ecommerce` checkout (lines 446-467):
every item decrements its (locked, shared) variant row by its quantity;
repeated references to one variant accumulate because the loop mutates
the single locked object. -/
def decrementsLoop (items : List CartItem) (acc : List Variant) : List Variant :=
  match items with
  | [] => acc
  | it :: rest =>
      decrementsLoop rest
        (updateVariant acc it.variant (fun v => { v with stock := v.stock - it.qty }))

/-- Stock decrements of the `ecommerce` checkout loop applied to the
variant table. -/
def applyDecrements (vs : List Variant) (items : List CartItem) : List Variant :=
  decrementsLoop items vs

/-- Loop body sequence of the `carts` checkout (lines 123-133): each item
re-reads its own variant object (loaded with the items, i.e. carrying the
ORIGINAL stock from `orig`) and saves `stock = max(0, orig.stock - qty)`;
for repeated references the last write wins. -/
def clampedLoop (orig : List Variant) (items : List CartItem) (acc : List Variant) :
    List Variant :=
  match items with
  | [] => acc
  | it :: rest =>
      let o := orig.getD it.variant default
      clampedLoop orig rest
        (updateVariant acc it.variant (fun _ => { o with stock := max 0 (o.stock - it.qty) }))

/-- Stock writes of the `carts` checkout loop applied to the variant
table. -/
def applyClampedWrites (orig : List Variant) (items : List CartItem) : List Variant :=
  clampedLoop orig items orig

/-- Errors surfaced by the checkout endpoints. -/
inductive CheckoutError
  | emptyCart
  | insufficientStock (sku : String) (available : ℤ)
  | noOpenCart
deriving Repr, DecidableEq

/-- `ecommerce/views.py` `CartViewSet.checkout` (lines 387-473): obtain
(or create) the open cart; an empty cart gives the "Cart is empty" 400;
inside the transaction all referenced variants are locked and
re-validated, the first shortfall aborting with the insufficient-stock
message (no writes have happened at that point); otherwise the order is
created with `subtotal = Σ line_total`, zero discount/shipping/tax,
`grand_total = subtotal - 0 + 0 + 0`, each item becomes an `OrderItem`,
each variant's stock is decremented and a `change = -qty, reason="sale"`
movement is appended, and the cart is marked converted. -/
def checkout_ecommerce (w : World) : World × Option CheckoutError :=
  let gc := get_or_create_cart w.carts
  let ci := gc.1
  let carts1 := gc.2
  let w1 : World := { w with carts := carts1 }
  let cart := carts1.getD ci default
  if cart.items = [] then (w1, some .emptyCart)
  else
    match validateStock w.variants cart.items with
    | some sa => (w1, some (.insufficientStock sa.1 sa.2))
    | none =>
      let subtotal := (cart.items.map CartItem.line_total).sum
      let order : Order :=
        { subtotal := subtotal
          discount_total := 0
          shipping_total := 0
          tax_total := 0
          grand_total := subtotal - 0 + 0 + 0
          items := cart.items.map
            (fun it => ⟨it.variant, it.qty, it.price_at_add, it.line_total⟩) }
      let vs2 := applyDecrements w.variants cart.items
      let movs := cart.items.map
        (fun it => (⟨it.variant, -it.qty, "sale"⟩ : Movement))
      ({ variants := vs2
         carts := carts1.set ci { cart with status := CartStatus.statusConverted }
         orders := w1.orders ++ [order]
         movements := w1.movements ++ movs }, none)

/-- `carts/views.py` `CartViewSet.checkout` (lines 88-139): 404 when the
customer has no open cart; 400 when the cart is empty; otherwise — with
NO stock validation — the order is created (`subtotal = Σ price_at_add *
qty`, zero discount, caller-supplied shipping and tax), each variant's
stock is clamped to `max(0, stock - qty)`, a `-qty` sale movement is
appended per item, and the cart is marked converted. -/
def checkout_carts (w : World) (shipping tax : ℚ) : World × Option CheckoutError :=
  match findOpenCart w.carts with
  | none => (w, some .noOpenCart)
  | some ci =>
    let cart := w.carts.getD ci default
    if cart.items = [] then (w, some .emptyCart)
    else
      let subtotal := cart.items.foldl (fun s it => s + it.price_at_add * (it.qty : ℚ)) 0
      let order : Order :=
        { subtotal := subtotal
          discount_total := 0
          shipping_total := shipping
          tax_total := tax
          grand_total := subtotal - 0 + shipping + tax
          items := cart.items.map
            (fun it => ⟨it.variant, it.qty, it.price_at_add, it.price_at_add * (it.qty : ℚ)⟩) }
      let vs2 := applyClampedWrites w.variants cart.items
      let movs := cart.items.map
        (fun it => (⟨it.variant, -it.qty, "sale"⟩ : Movement))
      ({ variants := vs2
         carts := w.carts.set ci { cart with status := CartStatus.statusConverted }
         orders := w.orders ++ [order]
         movements := w.movements ++ movs }, none)

/-! ### Inventory movement endpoints -/

/-- Items of the cart that the `ecommerce` checkout endpoint operates on:
the open cart returned by `_get_or_create_cart`. -/
def ecomOpenItems (w : World) : List CartItem :=
  ((get_or_create_cart w.carts).2.getD (get_or_create_cart w.carts).1 default).items

/-- Items of the open cart that the `carts` checkout endpoint operates
on; empty when the customer has no open cart. -/
def cartsOpenItems (w : World) : List CartItem :=
  match findOpenCart w.carts with
  | some ci => (w.carts.getD ci default).items
  | none => []

/-- Number of carts with status `open` — the design invariant keeps this
at most one per customer. -/
def openCount (cs : List Cart) : ℕ :=
  cs.countP (fun c => decide (c.status = CartStatus.statusOpen))

/-- Number of cart-item rows referencing variant `vidx` — the uniqueness
property keeps this at most one per (cart, variant) pair. -/
def countItem (items : List CartItem) (vidx : ℕ) : ℕ :=
  items.countP (fun it => decide (it.variant = vidx))

/-- Quantity held by the (first) cart-item row for variant `vidx`, zero
when no row exists — the "existing qty" the add-item endpoints merge
into. -/
def itemQty (items : List CartItem) (vidx : ℕ) : ℤ :=
  match findItem items vidx with
  | some j => (items.getD j default).qty
  | none => 0

/-- `ecommerce/views.py` `InventoryMovementViewSet.perform_create` (lines
231-236): save the movement row, then `variant.stock += movement.change`
and save the variant. -/
def perform_create_ecommerce (vs : List Variant) (ms : List Movement)
    (vidx : ℕ) (change : ℤ) (reason : String) : List Variant × List Movement :=
  let ms' := ms ++ [⟨vidx, change, reason⟩]
  let vs' := updateVariant vs vidx (fun v => { v with stock := v.stock + change })
  (vs', ms')

/-- `inventory/views.py` `InventoryMovementViewSet` (lines 8-14): a plain
`ModelViewSet` with no `perform_create` override — creating a movement
only inserts the row; the variant's stock counter is not touched. -/
def perform_create_inventory (vs : List Variant) (ms : List Movement)
    (vidx : ℕ) (change : ℤ) (reason : String) : List Variant × List Movement :=
  (vs, ms ++ [⟨vidx, change, reason⟩])

/-! ### Helper lemmas about the embedded operations -/

theorem updateVariant_length (vs : List Variant) (i : ℕ) (f : Variant → Variant) :
    (updateVariant vs i f).length = vs.length := by
  unfold updateVariant
  cases h : vs[i]? with
  | none => rfl
  | some v => simp

theorem getElemD_updateVariant_ne (vs : List Variant) (i j : ℕ) (f : Variant → Variant)
    (hij : j ≠ i) :
    (updateVariant vs i f).getD j default = vs.getD j default := by
  unfold updateVariant
  cases h : vs[i]? with
  | none => rfl
  | some v =>
      simp [List.getD_eq_getElem?_getD, List.getElem?_set_ne (Ne.symm hij)]

theorem getElemD_updateVariant_self (vs : List Variant) (i : ℕ) (f : Variant → Variant)
    (hi : i < vs.length) :
    (updateVariant vs i f).getD i default = f (vs.getD i default) := by
  unfold updateVariant
  cases h : vs[i]? with
  | none => simp [List.getElem?_eq_none_iff] at h; omega
  | some v =>
      have hv : vs.getD i default = v := by
        simp [List.getD_eq_getElem?_getD, h]
      simp [List.getD_eq_getElem?_getD, List.getElem?_set_self hi, h]

theorem decrementsLoop_length (items : List CartItem) (acc : List Variant) :
    (decrementsLoop items acc).length = acc.length := by
  induction items generalizing acc with
  | nil => rfl
  | cons it rest ih =>
      simpa [decrementsLoop, updateVariant_length] using
        (ih (updateVariant acc it.variant (fun v => { v with stock := v.stock - it.qty }))).trans
          (updateVariant_length acc it.variant _)

theorem getElemD_decrementsLoop_not_ref (items : List CartItem) (acc : List Variant)
    (j : ℕ) (h : ∀ it ∈ items, it.variant ≠ j) :
    (decrementsLoop items acc).getD j default = acc.getD j default := by
  induction items generalizing acc with
  | nil => rfl
  | cons it rest ih =>
      have hne : j ≠ it.variant := fun he => (h it (by simp)) (by omega)
      rw [decrementsLoop, ih _ (fun x hx => h x (by simp [hx])),
        getElemD_updateVariant_ne _ _ _ _ hne]

theorem getElemD_decrementsLoop_mem (items : List CartItem) (acc : List Variant)
    (it : CartItem) (hmem : it ∈ items)
    (hnd : (items.map CartItem.variant).Nodup)
    (hlt : it.variant < acc.length) :
    (decrementsLoop items acc).getD it.variant default
      = { acc.getD it.variant default with
          stock := (acc.getD it.variant default).stock - it.qty } := by
  induction items generalizing acc with
  | nil => cases hmem
  | cons hd rest ih =>
      rw [List.map_cons, List.nodup_cons] at hnd
      rcases List.mem_cons.mp hmem with heq | hrest
      · subst heq
        rw [decrementsLoop]
        have hnotin : ∀ x ∈ rest, x.variant ≠ it.variant := by
          intro x hx he
          exact hnd.1 (he ▸ List.mem_map_of_mem CartItem.variant hx)
        rw [getElemD_decrementsLoop_not_ref rest _ it.variant hnotin,
          getElemD_updateVariant_self _ _ _ hlt]
      · have hne : it.variant ≠ hd.variant := by
          intro he
          exact hnd.1 (he ▸ List.mem_map_of_mem CartItem.variant hrest)
        rw [decrementsLoop]
        rw [ih _ hrest hnd.2 (by rwa [updateVariant_length]),
          getElemD_updateVariant_ne _ _ _ _ hne]

theorem clampedLoop_length (orig : List Variant) (items : List CartItem)
    (acc : List Variant) :
    (clampedLoop orig items acc).length = acc.length := by
  induction items generalizing acc with
  | nil => rfl
  | cons it rest ih =>
      simpa [clampedLoop, updateVariant_length] using
        (ih (updateVariant acc it.variant _)).trans (updateVariant_length acc it.variant _)

theorem getElemD_clampedLoop_not_ref (orig : List Variant) (items : List CartItem)
    (acc : List Variant) (j : ℕ) (h : ∀ it ∈ items, it.variant ≠ j) :
    (clampedLoop orig items acc).getD j default = acc.getD j default := by
  induction items generalizing acc with
  | nil => rfl
  | cons it rest ih =>
      have hne : j ≠ it.variant := fun he => (h it (by simp)) (by omega)
      rw [clampedLoop, ih _ (fun x hx => h x (by simp [hx])),
        getElemD_updateVariant_ne _ _ _ _ hne]

theorem getElemD_clampedLoop_mem (orig : List Variant) (items : List CartItem)
    (acc : List Variant) (it : CartItem) (hmem : it ∈ items)
    (hnd : (items.map CartItem.variant).Nodup)
    (hlt : it.variant < acc.length) :
    (clampedLoop orig items acc).getD it.variant default
      = { orig.getD it.variant default with
          stock := max 0 ((orig.getD it.variant default).stock - it.qty) } := by
  induction items generalizing acc with
  | nil => cases hmem
  | cons hd rest ih =>
      rw [List.map_cons, List.nodup_cons] at hnd
      rcases List.mem_cons.mp hmem with heq | hrest
      · subst heq
        rw [clampedLoop]
        have hnotin : ∀ x ∈ rest, x.variant ≠ it.variant := by
          intro x hx he
          exact hnd.1 (he ▸ List.mem_map_of_mem CartItem.variant hx)
        rw [getElemD_clampedLoop_not_ref orig rest _ it.variant hnotin,
          getElemD_updateVariant_self _ _ _ hlt]
      · have hne : it.variant ≠ hd.variant := by
          intro he
          exact hnd.1 (he ▸ List.mem_map_of_mem CartItem.variant hrest)
        rw [clampedLoop]
        rw [ih _ hrest hnd.2 (by rwa [updateVariant_length])]

theorem validateStock_none_ge (vs : List Variant) (items : List CartItem)
    (h : validateStock vs items = none) :
    ∀ it ∈ items, it.qty ≤ (vs.getD it.variant default).stock := by
  induction items with
  | nil => intro it hit; cases hit
  | cons hd rest ih =>
      rw [validateStock] at h
      by_cases hc : (vs.getD hd.variant default).stock < hd.qty
      · rw [if_pos hc] at h
        exact absurd h (by simp)
      · rw [if_neg hc] at h
        intro it hit
        rcases List.mem_cons.mp hit with heq | hr
        · subst heq; omega
        · exact ih h it hr

theorem validateStock_offender (vs : List Variant) (items : List CartItem)
    (h : ∃ it ∈ items, (vs.getD it.variant default).stock < it.qty) :
    ∃ it ∈ items, (vs.getD it.variant default).stock < it.qty ∧
      validateStock vs items
        = some ((vs.getD it.variant default).sku, (vs.getD it.variant default).stock) := by
  induction items with
  | nil => simp at h
  | cons hd rest ih =>
      by_cases hc : (vs.getD hd.variant default).stock < hd.qty
      · exact ⟨hd, by simp, hc, by rw [validateStock, if_pos hc]⟩
      · have hrest : ∃ it ∈ rest, (vs.getD it.variant default).stock < it.qty := by
          rcases h with ⟨it, hit, hlt⟩
          rcases List.mem_cons.mp hit with heq | hr
          · exact absurd (heq ▸ hlt) hc
          · exact ⟨it, hr, hlt⟩
        rcases ih hrest with ⟨it, hr, hlt, heq⟩
        exact ⟨it, by simp [hr], hlt, by rw [validateStock, if_neg hc]; exact heq⟩

theorem findOpenCart_some_spec (cs : List Cart) (i : ℕ)
    (h : findOpenCart cs = some i) :
    i < cs.length ∧ (cs.getD i default).status = CartStatus.statusOpen := by
  induction cs generalizing i with
  | nil => simp [findOpenCart] at h
  | cons c rest ih =>
      rw [findOpenCart] at h
      by_cases hc : c.status = CartStatus.statusOpen
      · simp only [hc, if_true] at h
        cases h
        exact ⟨by simp, by simpa using hc⟩
      · simp only [hc, if_false] at h
        obtain ⟨j, hj, rfl⟩ := Option.map_eq_some'.mp h
        obtain ⟨hlen, hst⟩ := ih j hj
        exact ⟨by simpa using hlen, by simpa using hst⟩

theorem findOpenCart_none_of_all (cs : List Cart)
    (h : ∀ c ∈ cs, c.status ≠ CartStatus.statusOpen) : findOpenCart cs = none := by
  induction cs with
  | nil => rfl
  | cons c rest ih =>
      rw [findOpenCart]
      simp [h c (by simp), ih (fun x hx => h x (by simp [hx]))]

theorem openCount_cons (c : Cart) (rest : List Cart) :
    openCount (c :: rest)
      = (if c.status = CartStatus.statusOpen then 1 else 0) + openCount rest := by
  unfold openCount
  rw [List.countP_cons]
  by_cases hc : c.status = CartStatus.statusOpen
  · simp [hc]
    omega
  · simp [hc]

theorem openCount_zero_no_open (cs : List Cart) (h : openCount cs = 0) :
    ∀ c ∈ cs, c.status ≠ CartStatus.statusOpen := by
  intro c hc
  unfold openCount at h
  have := List.countP_eq_zero.mp h c hc
  simpa using this

theorem findOpenCart_set_converted (cs : List Cart) (i : ℕ) (its : List CartItem)
    (hcount : openCount cs ≤ 1) (hfind : findOpenCart cs = some i) :
    findOpenCart (cs.set i ⟨CartStatus.statusConverted, its⟩) = none := by
  induction cs generalizing i with
  | nil => simp [findOpenCart] at hfind
  | cons c rest ih =>
      rw [findOpenCart] at hfind
      by_cases hc : c.status = CartStatus.statusOpen
      · rw [if_pos hc] at hfind
        cases hfind
        rw [openCount_cons, if_pos hc] at hcount
        have hrest : openCount rest = 0 := by omega
        rw [List.set_cons_zero, findOpenCart]
        have hnone : findOpenCart rest = none :=
          findOpenCart_none_of_all rest (openCount_zero_no_open rest hrest)
        simp [hnone]
      · rw [if_neg hc] at hfind
        obtain ⟨j, hj, rfl⟩ := Option.map_eq_some'.mp hfind
        rw [openCount_cons, if_neg hc] at hcount
        have hcount' : openCount rest ≤ 1 := by omega
        rw [List.set_cons_succ, findOpenCart, if_neg hc, ih j hcount' hj]
        rfl

theorem sum_map_change_sale (items : List CartItem) :
    ((items.map (fun it => (⟨it.variant, -it.qty, "sale"⟩ : Movement))).map
        Movement.change).sum
      = -((items.map CartItem.qty).sum) := by
  induction items with
  | nil => simp
  | cons hd rest ih =>
      simp only [List.map_cons, List.sum_cons, ih]
      ring

theorem get_or_create_cart_found (cs : List Cart) (i : ℕ)
    (h : findOpenCart cs = some i) : get_or_create_cart cs = (i, cs) := by
  unfold get_or_create_cart
  rw [h]

theorem get_or_create_cart_nonempty (cs : List Cart)
    (h : ((get_or_create_cart cs).2.getD (get_or_create_cart cs).1 default).items ≠ []) :
    ∃ i, findOpenCart cs = some i ∧ get_or_create_cart cs = (i, cs) := by
  cases hf : findOpenCart cs with
  | some i => exact ⟨i, rfl, get_or_create_cart_found cs i hf⟩
  | none =>
      exfalso
      apply h
      unfold get_or_create_cart
      rw [hf]
      simp [List.getD_eq_getElem?_getD, List.getElem?_append_right (le_refl cs.length)]

theorem countItem_cons (hd : CartItem) (rest : List CartItem) (vidx : ℕ) :
    countItem (hd :: rest) vidx
      = (if hd.variant = vidx then 1 else 0) + countItem rest vidx := by
  unfold countItem
  rw [List.countP_cons]
  by_cases hc : hd.variant = vidx
  · simp [hc]
    omega
  · simp [hc]

theorem findItem_none_of_count_zero (items : List CartItem) (vidx : ℕ)
    (h : countItem items vidx = 0) : findItem items vidx = none := by
  induction items with
  | nil => rfl
  | cons hd rest ih =>
      rw [countItem_cons] at h
      rw [findItem]
      by_cases hc : hd.variant = vidx
      · rw [if_pos hc] at h
        omega
      · rw [if_neg hc] at h
        rw [if_neg hc, ih (by omega)]
        rfl

theorem findItem_some_spec (items : List CartItem) (vidx j : ℕ)
    (h : findItem items vidx = some j) :
    j < items.length ∧ (items.getD j default).variant = vidx := by
  induction items generalizing j with
  | nil => simp [findItem] at h
  | cons hd rest ih =>
      rw [findItem] at h
      by_cases hc : hd.variant = vidx
      · simp only [hc, if_true] at h
        cases h
        exact ⟨by simp, by simpa using hc⟩
      · simp only [hc, if_false] at h
        obtain ⟨k, hk, rfl⟩ := Option.map_eq_some'.mp h
        obtain ⟨hlen, hvar⟩ := ih k hk
        exact ⟨by simpa using hlen, by simpa using hvar⟩

theorem findItem_append_single (items : List CartItem) (vidx : ℕ) (x : CartItem)
    (hnone : findItem items vidx = none) (hx : x.variant = vidx) :
    findItem (items ++ [x]) vidx = some items.length := by
  induction items with
  | nil => simp [findItem, hx]
  | cons hd rest ih =>
      rw [findItem] at hnone
      by_cases hc : hd.variant = vidx
      · simp [hc] at hnone
      · simp only [hc, if_false] at hnone
        have hrest : findItem rest vidx = none := by
          cases h : findItem rest vidx with
          | none => rfl
          | some k => rw [h] at hnone; simp at hnone
        rw [List.cons_append, findItem]
        simp [hc, ih hrest]

theorem set_append_last {α : Type} (l : List α) (a b : α) :
    (l ++ [a]).set l.length b = l ++ [b] := by
  induction l with
  | nil => rfl
  | cons hd tl ih => simp [List.set_cons_succ, ih]

theorem getD_append_length {α : Type} [Inhabited α] (l : List α) (a : α) :
    (l ++ [a]).getD l.length default = a := by
  simp [List.getD_eq_getElem?_getD, List.getElem?_append_right (le_refl l.length)]

theorem abs_sub_halfEvenRound_le (x : ℚ) : |x - (halfEvenRound x : ℚ)| ≤ 1/2 := by
  have h0 : (⌊x⌋ : ℚ) ≤ x := Int.floor_le x
  have h1 : x - (⌊x⌋ : ℚ) < 1 := by
    have := Int.lt_floor_add_one x
    linarith
  simp only [halfEvenRound]
  by_cases hr : x - (⌊x⌋ : ℚ) < 1/2
  · rw [if_pos hr, abs_le]
    constructor <;> linarith
  · rw [if_neg hr]
    by_cases hr2 : 1/2 < x - (⌊x⌋ : ℚ)
    · rw [if_pos hr2, abs_le]
      push_cast
      constructor <;> linarith
    · rw [if_neg hr2]
      by_cases hev : ⌊x⌋ % 2 = 0
      · rw [if_pos hev, abs_le]
        constructor <;> linarith
      · rw [if_neg hev, abs_le]
        push_cast
        constructor <;> linarith

theorem quantize2_near (x : ℚ) :
    ∃ n : ℤ, quantize2 x = (n : ℚ)/100 ∧ |x - (n : ℚ)/100| ≤ 1/200 := by
  refine ⟨halfEvenRound (x * 100), rfl, ?_⟩
  have key : x - (halfEvenRound (x * 100) : ℚ)/100
      = (x * 100 - (halfEvenRound (x * 100) : ℚ))/100 := by ring
  rw [key, abs_div]
  have h100 : |(100 : ℚ)| = 100 := by norm_num
  rw [h100]
  linarith [abs_sub_halfEvenRound_le (x * 100)]

/-! ### Claim theorems -/

/-- C7 counterexample: the `ecommerce` implementation computes the
percentage discount as `subtotal * (value / 100)` WITHOUT quantization.
For `value = 10` and `subtotal = 0.05` it yields `0.005`, while the
2-decimal quantization of `subtotal × value / 100` is `0.00` — so the
claim that the computed discount always equals the quantized value is
false at this input. -/
theorem percentage_discount_quantized_cex :
    discount_ecommerce ⟨RuleType.percentage, 10, true, none, none⟩ (1/20) = 1/200
    ∧ quantize2 ((1/20) * 10 / 100) = 0
    ∧ ((1/200 : ℚ) ≠ 0) := by
  refine ⟨by norm_num [discount_ecommerce], ?_, by norm_num⟩
  norm_num [quantize2, halfEvenRound]

/-- C7 (amended): for every percentage pricing rule and every subtotal,
the `carts` and `promotions` implementations compute the discount as
`subtotal × value / 100` quantized to exactly 2 decimal places with
round-half-even — in particular the result is an integer number of cents
within half a cent of the exact product — while the `ecommerce`
implementation computes the exact, unquantized `subtotal × value / 100`. -/
theorem percentage_discount_amended (r : PricingRule) (s : ℚ)
    (hp : r.type = RuleType.percentage) :
    discount_carts r s = quantize2 (s * r.value / 100)
    ∧ discount_promotions r s = quantize2 (s * r.value / 100)
    ∧ (∃ n : ℤ, discount_carts r s = (n : ℚ)/100
        ∧ |s * r.value / 100 - (n : ℚ)/100| ≤ 1/200)
    ∧ discount_ecommerce r s = s * r.value / 100 := by
  have ht : r.type ≠ RuleType.fixed := by
    rw [hp]
    intro h
    cases h
  have hc : discount_carts r s = quantize2 (s * r.value / 100) := by
    rw [discount_carts, if_neg ht]
    congr 1
    ring
  refine ⟨hc, ?_, ?_, ?_⟩
  · rw [discount_promotions, if_neg ht]
    congr 1
    ring
  · obtain ⟨n, hn, hb⟩ := quantize2_near (s * r.value / 100)
    exact ⟨n, hc.trans hn, hb⟩
  · rw [discount_ecommerce, if_pos hp]
    ring

/-- C7 witness: the amended statement at the SAVE10 scenario — a
10-percent rule over a subtotal of 100. -/
theorem percentage_discount_amended_witness :
    discount_carts ⟨RuleType.percentage, 10, true, none, none⟩ 100
        = quantize2 (100 * 10 / 100)
    ∧ discount_promotions ⟨RuleType.percentage, 10, true, none, none⟩ 100
        = quantize2 (100 * 10 / 100)
    ∧ (∃ n : ℤ, discount_carts ⟨RuleType.percentage, 10, true, none, none⟩ 100 = (n : ℚ)/100
        ∧ |100 * 10 / 100 - (n : ℚ)/100| ≤ 1/200)
    ∧ discount_ecommerce ⟨RuleType.percentage, 10, true, none, none⟩ 100 = 100 * 10 / 100 :=
  percentage_discount_amended ⟨RuleType.percentage, 10, true, none, none⟩ 100 rfl

/-- C8: for every fixed-amount pricing rule and every subtotal, all three
implementations compute the discount as `min(value, subtotal)`, and the
resulting grand total `subtotal - discount` is never negative. -/
theorem fixed_discount_min (r : PricingRule) (s : ℚ)
    (hf : r.type = RuleType.fixed) :
    discount_ecommerce r s = min r.value s
    ∧ discount_promotions r s = min r.value s
    ∧ discount_carts r s = min r.value s
    ∧ 0 ≤ s - discount_ecommerce r s := by
  have hne : r.type ≠ RuleType.percentage := by
    rw [hf]
    intro h
    cases h
  refine ⟨by rw [discount_ecommerce, if_neg hne], by rw [discount_promotions, if_pos hf],
    by rw [discount_carts, if_pos hf], ?_⟩
  rw [discount_ecommerce, if_neg hne]
  have := min_le_right r.value s
  linarith

/-- C8 witness: the FLAT20 scenario — a fixed rule of 20 over a subtotal
of 15 gives discount `min 20 15 = 15` and a non-negative total. -/
theorem fixed_discount_min_witness :
    discount_ecommerce ⟨RuleType.fixed, 20, true, none, none⟩ 15 = min 20 15
    ∧ discount_promotions ⟨RuleType.fixed, 20, true, none, none⟩ 15 = min 20 15
    ∧ discount_carts ⟨RuleType.fixed, 20, true, none, none⟩ 15 = min 20 15
    ∧ 0 ≤ 15 - discount_ecommerce ⟨RuleType.fixed, 20, true, none, none⟩ 15 :=
  fixed_discount_min ⟨RuleType.fixed, 20, true, none, none⟩ 15 rfl

/-- C9 counterexample: the inventory app's movement endpoint only appends
the ledger row; a variant with stock 10 receiving a `+5` movement still
has stock 10, not `10 + 5` — so the claim that every created movement
adjusts the stock counter is false for that endpoint. -/
theorem record_movement_cex :
    perform_create_inventory [⟨"A", 10, none, 10⟩] [] 0 5 "restock"
      = ([⟨"A", 10, none, 10⟩], [⟨0, 5, "restock"⟩])
    ∧ ((10 : ℤ) ≠ 10 + 5) := by
  exact ⟨rfl, by norm_num⟩

/-- C9 (amended): the `ecommerce` movement endpoint appends the row and
adjusts the referenced variant's stock by the movement's change; the
`inventory` app endpoint appends the row but leaves every variant's stock
unchanged. -/
theorem record_movement_amended (vs : List Variant) (ms : List Movement)
    (vidx : ℕ) (change : ℤ) (reason : String) (hlt : vidx < vs.length) :
    ((perform_create_ecommerce vs ms vidx change reason).1.getD vidx default).stock
      = (vs.getD vidx default).stock + change
    ∧ (perform_create_ecommerce vs ms vidx change reason).2
      = ms ++ [⟨vidx, change, reason⟩]
    ∧ (perform_create_inventory vs ms vidx change reason).1 = vs
    ∧ (perform_create_inventory vs ms vidx change reason).2
      = ms ++ [⟨vidx, change, reason⟩] := by
  refine ⟨?_, rfl, rfl, rfl⟩
  show ((updateVariant vs vidx
      (fun v => { v with stock := v.stock + change })).getD vidx default).stock = _
  rw [getElemD_updateVariant_self vs vidx _ hlt]

/-- C9 witness: the amended statement at a one-variant table with a `+5`
restock movement. -/
theorem record_movement_amended_witness :
    (0 < 1)
    ∧ (((perform_create_ecommerce [⟨"A", 10, none, 10⟩] [] 0 5 "restock").1.getD 0
          default).stock
        = (([⟨"A", 10, none, 10⟩] : List Variant).getD 0 default).stock + 5
      ∧ (perform_create_ecommerce [⟨"A", 10, none, 10⟩] [] 0 5 "restock").2
        = [] ++ [⟨0, 5, "restock"⟩]
      ∧ (perform_create_inventory [⟨"A", 10, none, 10⟩] [] 0 5 "restock").1
        = [⟨"A", 10, none, 10⟩]
      ∧ (perform_create_inventory [⟨"A", 10, none, 10⟩] [] 0 5 "restock").2
        = [] ++ [⟨0, 5, "restock"⟩]) :=
  ⟨by norm_num,
   record_movement_amended [⟨"A", 10, none, 10⟩] [] 0 5 "restock" (by norm_num)⟩

/-- C10 counterexample: `Variant.effective_price` tests the sale price by
Python truthiness, so a variant with `sale_price = 0.00` and `price = 10`
has effective price 10, not the non-null sale price 0 —  the claim is
false for a zero sale price. -/
theorem effective_price_cex :
    Variant.effective_price ⟨"A", 10, some 0, 5⟩ = 10
    ∧ (⟨"A", 10, some 0, 5⟩ : Variant).sale_price = some 0
    ∧ ((10 : ℚ) ≠ 0) := by
  refine ⟨by norm_num [Variant.effective_price], rfl, by norm_num⟩

/-- C10 (amended): `Variant.effective_price` equals the sale price
whenever it is present AND non-zero, and the regular price otherwise (a
present sale price of 0.00 falls back to the regular price); the `carts`
add-item snapshot instead uses the sale price whenever it is non-null,
including 0.00. -/
theorem effective_price_amended (v : Variant) :
    (∀ sp : ℚ, v.sale_price = some sp →
      (sp ≠ 0 → v.effective_price = sp) ∧ (sp = 0 → v.effective_price = v.price))
    ∧ (v.sale_price = none → v.effective_price = v.price)
    ∧ (∀ sp : ℚ, v.sale_price = some sp → v.carts_price_at_add = sp)
    ∧ (v.sale_price = none → v.carts_price_at_add = v.price) := by
  refine ⟨?_, ?_, ?_, ?_⟩
  · intro sp hsp
    constructor
    · intro hz
      rw [Variant.effective_price, hsp]
      simp [hz]
    · intro hz
      rw [Variant.effective_price, hsp]
      simp [hz]
  · intro h
    rw [Variant.effective_price, h]
  · intro sp hsp
    rw [Variant.carts_price_at_add, hsp]
  · intro h
    rw [Variant.carts_price_at_add, h]

/-- C10 witness: the amended statement applied to a variant with a zero
sale price: `effective_price` gives the regular price 10 while the carts
snapshot gives the sale price 0. -/
theorem effective_price_amended_witness :
    Variant.effective_price ⟨"A", 10, some 0, 5⟩ = (⟨"A", 10, some 0, 5⟩ : Variant).price
    ∧ Variant.carts_price_at_add ⟨"A", 10, some 0, 5⟩ = 0 :=
  ⟨((effective_price_amended ⟨"A", 10, some 0, 5⟩).1 0 rfl).2 rfl,
   (effective_price_amended ⟨"A", 10, some 0, 5⟩).2.2.1 0 rfl⟩

/-- C6 counterexample: the `ecommerce` promotion preview fails with a 404
when the code is unknown — it does not return a successful zero-discount
preview, so the degrade-gracefully claim is false. -/
theorem promotion_preview_cex :
    apply_promotion_ecommerce [] (some "SAVE10") 100 = PromoResp.errorResp 404
    ∧ PromoResp.errorResp 404 ≠ PromoResp.preview 100 0 100 := by
  exact ⟨rfl, by simp⟩

/-- C6 (amended): every promotion-preview implementation FAILS the call
instead of degrading to a zero-discount success: a missing code is a 400
validation error in the `ecommerce` endpoint; a failed case-insensitive
lookup is a 404 there and a 400 in the `promotions`/`carts` endpoints; an
unavailable promotion is a 400 in `ecommerce`; an inactive rule is a 400
in `promotions`/`carts`. -/
theorem promotion_preview_amended (promos : List Promotion) (now : ℤ) (s : ℚ) :
    (apply_promotion_ecommerce promos none s = PromoResp.errorResp 400)
    ∧ (∀ c : String, promos.find? (fun q => iexact q.code c) = none →
        apply_promotion_ecommerce promos (some c) s = PromoResp.errorResp 404)
    ∧ (∀ (c : String) (p : Promotion),
        promos.find? (fun q => iexact q.code c) = some p →
        p.is_available = false →
        apply_promotion_ecommerce promos (some c) s = PromoResp.errorResp 400)
    ∧ (∀ c : Option String,
        promos.find? (fun q => q.active && iexact q.code (c.getD "")) = none →
        apply_promotion_promotions promos now c s = PromoResp.errorResp 400
        ∧ apply_promotion_carts promos now c s = PromoResp.errorResp 400)
    ∧ (∀ (c : Option String) (p : Promotion),
        promos.find? (fun q => q.active && iexact q.code (c.getD "")) = some p →
        p.rule.is_active now = false →
        apply_promotion_promotions promos now c s = PromoResp.errorResp 400
        ∧ apply_promotion_carts promos now c s = PromoResp.errorResp 400) := by
  refine ⟨rfl, ?_, ?_, ?_, ?_⟩
  · intro c hfind
    simp [apply_promotion_ecommerce, hfind]
  · intro c p hfind havail
    simp [apply_promotion_ecommerce, hfind, havail]
  · intro c hfind
    constructor
    · simp [apply_promotion_promotions, hfind]
    · simp [apply_promotion_carts, hfind]
  · intro c p hfind hact
    constructor
    · simp [apply_promotion_promotions, hfind, hact]
    · simp [apply_promotion_carts, hfind, hact]

/-- C6 witness: the amended statement exercised on an empty promotion
table (unknown code) and on a table whose only promotion is inactive. -/
theorem promotion_preview_amended_witness :
    (apply_promotion_ecommerce [] none 100 = PromoResp.errorResp 400
      ∧ apply_promotion_ecommerce [] (some "SAVE10") 100 = PromoResp.errorResp 404
      ∧ apply_promotion_promotions [] 7 (some "SAVE10") 100 = PromoResp.errorResp 400
      ∧ apply_promotion_carts [] 7 (some "SAVE10") 100 = PromoResp.errorResp 400)
    ∧ apply_promotion_ecommerce
        [⟨"X", ⟨RuleType.fixed, 5, true, none, none⟩, false, none, 0⟩]
        (some "X") 100 = PromoResp.errorResp 400 := by
  have hfind : ([] : List Promotion).find? (fun q => iexact q.code "SAVE10") = none := rfl
  have hfind2 : ([] : List Promotion).find?
      (fun q => q.active && iexact q.code ((some "SAVE10").getD "")) = none := rfl
  have hfindX : ([⟨"X", ⟨RuleType.fixed, 5, true, none, none⟩, false, none, 0⟩]
        : List Promotion).find? (fun q => iexact q.code "X")
      = some ⟨"X", ⟨RuleType.fixed, 5, true, none, none⟩, false, none, 0⟩ := by
    rw [List.find?]
    have : iexact "X" "X" = true := by decide
    simp [this]
  refine ⟨⟨(promotion_preview_amended [] 7 100).1,
    (promotion_preview_amended [] 7 100).2.1 "SAVE10" hfind,
    ((promotion_preview_amended [] 7 100).2.2.2.1 (some "SAVE10") hfind2).1,
    ((promotion_preview_amended [] 7 100).2.2.2.1 (some "SAVE10") hfind2).2⟩, ?_⟩
  exact (promotion_preview_amended
      [⟨"X", ⟨RuleType.fixed, 5, true, none, none⟩, false, none, 0⟩] 7 100).2.2.1
    "X" ⟨"X", ⟨RuleType.fixed, 5, true, none, none⟩, false, none, 0⟩ hfindX rfl

/-- C5 counterexample: the `carts` add-item endpoint records a quantity of
5 for a variant with stock 1 and succeeds — it performs no stock check,
so the claim that addItem always rejects quantities beyond stock is
false. -/
theorem add_item_stock_cex :
    add_item_carts [⟨"A", 10, none, 1⟩] [] 0 5 = Except.ok [⟨0, 5, 10⟩]
    ∧ ((1 : ℤ) < 5) := by
  exact ⟨rfl, by norm_num⟩

theorem findItem_set_of_found (items : List CartItem) (vidx j : ℕ) (x : CartItem)
    (h : findItem items vidx = some j) (hx : x.variant = vidx) :
    findItem (items.set j x) vidx = some j := by
  induction items generalizing j with
  | nil => simp [findItem] at h
  | cons hd rest ih =>
      rw [findItem] at h
      by_cases hc : hd.variant = vidx
      · rw [if_pos hc] at h
        cases h
        rw [List.set_cons_zero, findItem, if_pos hx]
      · rw [if_neg hc] at h
        obtain ⟨k, hk, rfl⟩ := Option.map_eq_some'.mp h
        rw [List.set_cons_succ, findItem, if_neg hc, ih k hk]
        rfl

theorem getD_set_self {α : Type} [Inhabited α] (l : List α) (j : ℕ) (x : α)
    (h : j < l.length) : (l.set j x).getD j default = x := by
  simp [List.getD_eq_getElem?_getD, List.getElem?_set_self h]

/-- C5 (amended): the `ecommerce` add-item endpoint rejects with an
insufficient-stock error whenever the variant's stock is below the
resulting total quantity (existing row qty plus requested qty), and any
quantity it does record never exceeds the available stock; the `carts`
add-item endpoint performs no stock check at all and always succeeds on a
known variant. -/
theorem add_item_stock_amended (vs : List Variant) (items : List CartItem)
    (vidx : ℕ) (qty : ℤ) (v : Variant) (hv : vs[vidx]? = some v) :
    (1 ≤ qty → v.stock < qty + itemQty items vidx →
      add_item_ecommerce vs items vidx qty
        = .error (.insufficientStock v.stock (qty + itemQty items vidx)))
    ∧ (∀ items', add_item_ecommerce vs items vidx qty = .ok items' →
        itemQty items' vidx = qty + itemQty items vidx
        ∧ itemQty items' vidx ≤ v.stock)
    ∧ (∃ items', add_item_carts vs items vidx qty = .ok items') := by
  refine ⟨?_, ?_, ?_⟩
  · intro hq hlt
    have hq' : ¬ qty < 1 := by omega
    cases hfi : findItem items vidx with
    | some j =>
        have hiq : itemQty items vidx = (items.getD j default).qty := by
          simp only [itemQty, hfi]
        rw [hiq] at hlt ⊢
        simp only [add_item_ecommerce, hv, if_neg hq', hfi]
        rw [if_pos hlt]
    | none =>
        have hiq : itemQty items vidx = 0 := by simp only [itemQty, hfi]
        rw [hiq] at hlt ⊢
        have hlt' : v.stock < qty := by omega
        simp only [add_item_ecommerce, hv, if_neg hq', hfi]
        rw [if_pos hlt']
        norm_num
  · intro items' hok
    by_cases hq : qty < 1
    · rw [add_item_ecommerce, if_pos hq] at hok
      exact absurd hok (by simp)
    · cases hfi : findItem items vidx with
      | some j =>
          obtain ⟨hjlen, hjvar⟩ := findItem_some_spec items vidx j hfi
          simp only [add_item_ecommerce, hv, if_neg hq, hfi] at hok
          by_cases hs : v.stock < qty + (items.getD j default).qty
          · rw [if_pos hs] at hok
            exact absurd hok (by simp)
          · rw [if_neg hs] at hok
            have hitems' : items' = items.set j
                { items.getD j default with qty := qty + (items.getD j default).qty } := by
              cases hok
              rfl
            have hfj : findItem items' vidx = some j := by
              rw [hitems']
              exact findItem_set_of_found items vidx j _ hfi (by simpa using hjvar)
            have hval : itemQty items' vidx
                = qty + (items.getD j default).qty := by
              simp only [itemQty, hfj]
              rw [hitems', getD_set_self _ _ _ hjlen]
            have hold : itemQty items vidx = (items.getD j default).qty := by
              simp only [itemQty, hfi]
            rw [hval, hold]
            omega
      | none =>
          simp only [add_item_ecommerce, hv, if_neg hq, hfi] at hok
          by_cases hs : v.stock < qty
          · rw [if_pos hs] at hok
            exact absurd hok (by simp)
          · rw [if_neg hs] at hok
            have hitems' : items' = items ++ [⟨vidx, qty, v.effective_price⟩] := by
              cases hok
              rfl
            have hfj : findItem items' vidx = some items.length := by
              rw [hitems']
              exact findItem_append_single items vidx _ hfi rfl
            have hval : itemQty items' vidx = qty := by
              simp only [itemQty, hfj]
              rw [hitems', getD_append_length]
            have hold : itemQty items vidx = 0 := by simp only [itemQty, hfi]
            rw [hval, hold]
            omega
  · cases hfi : findItem items vidx with
    | some j =>
        refine ⟨items.set j
          { items.getD j default with qty := (items.getD j default).qty + qty }, ?_⟩
        simp only [add_item_carts, hv, hfi]
    | none =>
        refine ⟨items ++ [⟨vidx, qty, v.carts_price_at_add⟩], ?_⟩
        simp only [add_item_carts, hv, hfi]

/-- C5 witness: the amended statement at a variant with stock 1 and a
requested quantity of 5: the `ecommerce` endpoint rejects with the stock
error while the `carts` endpoint succeeds. -/
theorem add_item_stock_amended_witness :
    ((1 : ℤ) ≤ 5 → (1 : ℤ) < 5 + itemQty [] 0 →
      add_item_ecommerce [⟨"A", 10, none, 1⟩] [] 0 5
        = .error (.insufficientStock 1 (5 + itemQty [] 0)))
    ∧ (∀ items', add_item_ecommerce [⟨"A", 10, none, 1⟩] [] 0 5 = .ok items' →
        itemQty items' 0 = 5 + itemQty [] 0 ∧ itemQty items' 0 ≤ 1)
    ∧ (∃ items', add_item_carts [⟨"A", 10, none, 1⟩] [] 0 5 = .ok items') :=
  add_item_stock_amended [⟨"A", 10, none, 1⟩] [] 0 5 ⟨"A", 10, none, 1⟩ rfl

theorem countItem_append (l1 l2 : List CartItem) (vidx : ℕ) :
    countItem (l1 ++ l2) vidx = countItem l1 vidx + countItem l2 vidx := by
  unfold countItem
  rw [List.countP_append]

theorem countItem_singleton (x : CartItem) (vidx : ℕ) (hx : x.variant = vidx) :
    countItem [x] vidx = 1 := by
  unfold countItem
  simp [hx]

theorem countItem_zero_no_ref (items : List CartItem) (vidx : ℕ)
    (h : countItem items vidx = 0) : ∀ it ∈ items, it.variant ≠ vidx := by
  intro it hit
  unfold countItem at h
  rw [List.countP_eq_zero] at h
  have := h it hit
  simpa using this

/-- C4: starting from a cart holding no row for the variant, two
sequential successful adds of quantities `qty1` and `qty2` for the same
(cart, variant) pair leave exactly one cart-item row for that pair and
its quantity is `qty1 + qty2`, in both the `ecommerce` and the `carts`
implementations. -/
theorem add_item_merge (vs : List Variant) (items : List CartItem) (vidx : ℕ)
    (qty1 qty2 : ℤ) (h0 : countItem items vidx = 0) :
    (∀ items1 items2,
      add_item_ecommerce vs items vidx qty1 = .ok items1 →
      add_item_ecommerce vs items1 vidx qty2 = .ok items2 →
      countItem items2 vidx = 1
      ∧ ∀ it ∈ items2, it.variant = vidx → it.qty = qty1 + qty2)
    ∧ (∀ items1 items2,
      add_item_carts vs items vidx qty1 = .ok items1 →
      add_item_carts vs items1 vidx qty2 = .ok items2 →
      countItem items2 vidx = 1
      ∧ ∀ it ∈ items2, it.variant = vidx → it.qty = qty1 + qty2) := by
  have hfi : findItem items vidx = none := findItem_none_of_count_zero items vidx h0
  constructor
  · intro items1 items2 h1 h2
    by_cases hq1 : qty1 < 1
    · rw [add_item_ecommerce, if_pos hq1] at h1
      exact absurd h1 (by simp)
    cases hv : vs[vidx]? with
    | none =>
        simp only [add_item_ecommerce, if_neg hq1, hv] at h1
        exact absurd h1 (by simp)
    | some v =>
        simp only [add_item_ecommerce, if_neg hq1, hv, hfi] at h1
        by_cases hs1 : v.stock < qty1
        · rw [if_pos hs1] at h1
          exact absurd h1 (by simp)
        rw [if_neg hs1] at h1
        have e1 : items1 = items ++ [⟨vidx, qty1, v.effective_price⟩] := by
          cases h1
          rfl
        by_cases hq2 : qty2 < 1
        · rw [add_item_ecommerce, if_pos hq2] at h2
          exact absurd h2 (by simp)
        have hfi1 : findItem items1 vidx = some items.length := by
          rw [e1]
          exact findItem_append_single items vidx _ hfi rfl
        simp only [add_item_ecommerce, if_neg hq2, hv, hfi1] at h2
        have hgd : items1.getD items.length default = ⟨vidx, qty1, v.effective_price⟩ := by
          rw [e1]
          exact getD_append_length _ _
        by_cases hs2 : v.stock < qty2 + (items1.getD items.length default).qty
        · rw [if_pos hs2] at h2
          exact absurd h2 (by simp)
        rw [if_neg hs2] at h2
        have e2 : items2 = items1.set items.length
            { items1.getD items.length default with
              qty := qty2 + (items1.getD items.length default).qty } := by
          cases h2
          rfl
        have e2' : items2 = items ++ [⟨vidx, qty2 + qty1, v.effective_price⟩] := by
          rw [e2, hgd, e1, set_append_last]
        constructor
        · rw [e2', countItem_append, h0, countItem_singleton _ _ rfl]
        · intro it hit hvar
          rw [e2'] at hit
          rcases List.mem_append.mp hit with hmem | hmem
          · exact absurd hvar (countItem_zero_no_ref items vidx h0 it hmem)
          · rw [List.mem_singleton.mp hmem]
            show qty2 + qty1 = qty1 + qty2
            omega
  · intro items1 items2 h1 h2
    cases hv : vs[vidx]? with
    | none =>
        simp only [add_item_carts, hv] at h1
        exact absurd h1 (by simp)
    | some v =>
        simp only [add_item_carts, hv, hfi] at h1
        have e1 : items1 = items ++ [⟨vidx, qty1, v.carts_price_at_add⟩] := by
          cases h1
          rfl
        have hfi1 : findItem items1 vidx = some items.length := by
          rw [e1]
          exact findItem_append_single items vidx _ hfi rfl
        simp only [add_item_carts, hv, hfi1] at h2
        have hgd : items1.getD items.length default = ⟨vidx, qty1, v.carts_price_at_add⟩ := by
          rw [e1]
          exact getD_append_length _ _
        have e2 : items2 = items1.set items.length
            { items1.getD items.length default with
              qty := (items1.getD items.length default).qty + qty2 } := by
          cases h2
          rfl
        have e2' : items2 = items ++ [⟨vidx, qty1 + qty2, v.carts_price_at_add⟩] := by
          rw [e2, hgd, e1, set_append_last]
        constructor
        · rw [e2', countItem_append, h0, countItem_singleton _ _ rfl]
        · intro it hit hvar
          rw [e2'] at hit
          rcases List.mem_append.mp hit with hmem | hmem
          · exact absurd hvar (countItem_zero_no_ref items vidx h0 it hmem)
          · rw [List.mem_singleton.mp hmem]

/-- C4 witness: the spec's scenario — adding qty 2 then qty 3 of a
variant with stock 10 merges into one row of qty 5 in both
implementations. -/
theorem add_item_merge_witness :
    countItem ([] : List CartItem) 0 = 0
    ∧ (countItem [(⟨0, 5, 10⟩ : CartItem)] 0 = 1
        ∧ ∀ it ∈ [(⟨0, 5, 10⟩ : CartItem)], it.variant = 0 → it.qty = 2 + 3)
    ∧ (countItem [(⟨0, 5, 10⟩ : CartItem)] 0 = 1
        ∧ ∀ it ∈ [(⟨0, 5, 10⟩ : CartItem)], it.variant = 0 → it.qty = 2 + 3) := by
  refine ⟨rfl, ?_, ?_⟩
  · exact (add_item_merge [⟨"A", 10, none, 10⟩] [] 0 2 3 rfl).1
      [⟨0, 2, 10⟩] [⟨0, 5, 10⟩]
      (by norm_num [add_item_ecommerce, findItem, Variant.effective_price])
      (by norm_num [add_item_ecommerce, findItem])
  · exact (add_item_merge [⟨"A", 10, none, 10⟩] [] 0 2 3 rfl).2
      [⟨0, 2, 10⟩] [⟨0, 5, 10⟩]
      (by norm_num [add_item_carts, findItem, Variant.carts_price_at_add])
      (by norm_num [add_item_carts, findItem])

theorem checkout_ecommerce_ok_spec (w w' : World)
    (h : checkout_ecommerce w = (w', none)) :
    ∃ ci, findOpenCart w.carts = some ci
      ∧ (w.carts.getD ci default).items ≠ []
      ∧ validateStock w.variants (w.carts.getD ci default).items = none
      ∧ w'.variants = applyDecrements w.variants (w.carts.getD ci default).items
      ∧ w'.carts = w.carts.set ci
          ⟨CartStatus.statusConverted, (w.carts.getD ci default).items⟩
      ∧ (∃ o : Order, w'.orders = w.orders ++ [o])
      ∧ w'.movements = w.movements
          ++ (w.carts.getD ci default).items.map
              (fun it => (⟨it.variant, -it.qty, "sale"⟩ : Movement)) := by
  cases hf : findOpenCart w.carts with
  | none =>
      exfalso
      simp only [checkout_ecommerce, get_or_create_cart, hf] at h
      rw [getD_append_length] at h
      simp at h
  | some ci =>
      simp only [checkout_ecommerce, get_or_create_cart, hf] at h
      by_cases hempty : (w.carts.getD ci default).items = []
      · rw [if_pos hempty] at h
        simp at h
      rw [if_neg hempty] at h
      cases hvs : validateStock w.variants (w.carts.getD ci default).items with
      | some sa =>
          rw [hvs] at h
          simp at h
      | none =>
          rw [hvs] at h
          injection h with h1 _
          subst h1
          exact ⟨ci, rfl, hempty, hvs, rfl, rfl, ⟨_, rfl⟩, rfl⟩

theorem checkout_carts_ok_spec (u u' : World) (sh tx : ℚ)
    (h : checkout_carts u sh tx = (u', none)) :
    ∃ ci, findOpenCart u.carts = some ci
      ∧ (u.carts.getD ci default).items ≠ []
      ∧ u'.variants = applyClampedWrites u.variants (u.carts.getD ci default).items
      ∧ u'.carts = u.carts.set ci
          ⟨CartStatus.statusConverted, (u.carts.getD ci default).items⟩
      ∧ (∃ o : Order, u'.orders = u.orders ++ [o])
      ∧ u'.movements = u.movements
          ++ (u.carts.getD ci default).items.map
              (fun it => (⟨it.variant, -it.qty, "sale"⟩ : Movement)) := by
  cases hf : findOpenCart u.carts with
  | none =>
      simp only [checkout_carts, hf] at h
      simp at h
  | some ci =>
      simp only [checkout_carts, hf] at h
      by_cases hempty : (u.carts.getD ci default).items = []
      · rw [if_pos hempty] at h
        simp at h
      rw [if_neg hempty] at h
      injection h with h1 _
      subst h1
      exact ⟨ci, rfl, hempty, rfl, rfl, ⟨_, rfl⟩, rfl⟩

/-- C3: under the design invariant of at most one open cart, a second
checkout after a successful one fails — in the `ecommerce` implementation
the converted cart is gone, so `_get_or_create_cart` makes a fresh empty
cart and the call errors with "Cart is empty"; in the `carts`
implementation the open-cart lookup 404s — and in both cases no further
order, stock change or inventory movement is produced. -/
theorem checkout_idempotent (w w1 : World) (hcount : openCount w.carts ≤ 1)
    (h1 : checkout_ecommerce w = (w1, none)) :
    ((checkout_ecommerce w1).2 = some CheckoutError.emptyCart
      ∧ (checkout_ecommerce w1).1.orders = w1.orders
      ∧ (checkout_ecommerce w1).1.variants = w1.variants
      ∧ (checkout_ecommerce w1).1.movements = w1.movements)
    ∧ (∀ (u u1 : World) (sh tx sh2 tx2 : ℚ), openCount u.carts ≤ 1 →
        checkout_carts u sh tx = (u1, none) →
        checkout_carts u1 sh2 tx2 = (u1, some CheckoutError.noOpenCart)) := by
  constructor
  · obtain ⟨ci, hf, hne, hvs, hvars, hcarts, ⟨o, ho⟩, hmov⟩ :=
      checkout_ecommerce_ok_spec w w1 h1
    have hnone : findOpenCart w1.carts = none := by
      rw [hcarts]
      exact findOpenCart_set_converted w.carts ci _ hcount hf
    simp only [checkout_ecommerce, get_or_create_cart, hnone]
    rw [getD_append_length]
    simp
  · intro u u1 sh tx sh2 tx2 hucount hu
    obtain ⟨ci, hf, hne, hvars, hcarts, ⟨o, ho⟩, hmov⟩ :=
      checkout_carts_ok_spec u u1 sh tx hu
    have hnone : findOpenCart u1.carts = none := by
      rw [hcarts]
      exact findOpenCart_set_converted u.carts ci _ hucount hf
    simp only [checkout_carts, hnone]

/-- C3 witness: the idempotence statement exercised on a one-variant,
one-cart world whose checkout succeeded (stock 5, qty 3): the second
`ecommerce` checkout returns the empty-cart error and the second `carts`
checkout 404s, with orders, variants and movements unchanged. -/
theorem checkout_idempotent_witness :
    ((checkout_ecommerce ⟨[⟨"A", 10, none, 2⟩], [⟨.statusConverted, [⟨0, 3, 10⟩]⟩],
        [⟨30, 0, 0, 0, 30, [⟨0, 3, 10, 30⟩]⟩], [⟨0, -3, "sale"⟩]⟩).2
        = some CheckoutError.emptyCart
      ∧ (checkout_ecommerce ⟨[⟨"A", 10, none, 2⟩], [⟨.statusConverted, [⟨0, 3, 10⟩]⟩],
          [⟨30, 0, 0, 0, 30, [⟨0, 3, 10, 30⟩]⟩], [⟨0, -3, "sale"⟩]⟩).1.orders
        = (⟨[⟨"A", 10, none, 2⟩], [⟨.statusConverted, [⟨0, 3, 10⟩]⟩],
            [⟨30, 0, 0, 0, 30, [⟨0, 3, 10, 30⟩]⟩], [⟨0, -3, "sale"⟩]⟩ : World).orders
      ∧ (checkout_ecommerce ⟨[⟨"A", 10, none, 2⟩], [⟨.statusConverted, [⟨0, 3, 10⟩]⟩],
          [⟨30, 0, 0, 0, 30, [⟨0, 3, 10, 30⟩]⟩], [⟨0, -3, "sale"⟩]⟩).1.variants
        = (⟨[⟨"A", 10, none, 2⟩], [⟨.statusConverted, [⟨0, 3, 10⟩]⟩],
            [⟨30, 0, 0, 0, 30, [⟨0, 3, 10, 30⟩]⟩], [⟨0, -3, "sale"⟩]⟩ : World).variants
      ∧ (checkout_ecommerce ⟨[⟨"A", 10, none, 2⟩], [⟨.statusConverted, [⟨0, 3, 10⟩]⟩],
          [⟨30, 0, 0, 0, 30, [⟨0, 3, 10, 30⟩]⟩], [⟨0, -3, "sale"⟩]⟩).1.movements
        = (⟨[⟨"A", 10, none, 2⟩], [⟨.statusConverted, [⟨0, 3, 10⟩]⟩],
            [⟨30, 0, 0, 0, 30, [⟨0, 3, 10, 30⟩]⟩], [⟨0, -3, "sale"⟩]⟩ : World).movements)
    ∧ checkout_carts ⟨[⟨"A", 10, none, 2⟩], [⟨.statusConverted, [⟨0, 3, 10⟩]⟩],
        [⟨30, 0, 0, 0, 30, [⟨0, 3, 10, 30⟩]⟩], [⟨0, -3, "sale"⟩]⟩ 0 0
      = (⟨[⟨"A", 10, none, 2⟩], [⟨.statusConverted, [⟨0, 3, 10⟩]⟩],
          [⟨30, 0, 0, 0, 30, [⟨0, 3, 10, 30⟩]⟩], [⟨0, -3, "sale"⟩]⟩,
         some CheckoutError.noOpenCart) := by
  have hcount : openCount [(⟨.statusOpen, [⟨0, 3, 10⟩]⟩ : Cart)] ≤ 1 := by
    simp [openCount]
  have h1 : checkout_ecommerce ⟨[⟨"A", 10, none, 5⟩], [⟨.statusOpen, [⟨0, 3, 10⟩]⟩], [], []⟩
      = (⟨[⟨"A", 10, none, 2⟩], [⟨.statusConverted, [⟨0, 3, 10⟩]⟩],
          [⟨30, 0, 0, 0, 30, [⟨0, 3, 10, 30⟩]⟩], [⟨0, -3, "sale"⟩]⟩, none) := by
    norm_num [checkout_ecommerce, get_or_create_cart, findOpenCart, validateStock,
      applyDecrements, decrementsLoop, updateVariant, CartItem.line_total]
  have hu : checkout_carts ⟨[⟨"A", 10, none, 5⟩], [⟨.statusOpen, [⟨0, 3, 10⟩]⟩], [], []⟩ 0 0
      = (⟨[⟨"A", 10, none, 2⟩], [⟨.statusConverted, [⟨0, 3, 10⟩]⟩],
          [⟨30, 0, 0, 0, 30, [⟨0, 3, 10, 30⟩]⟩], [⟨0, -3, "sale"⟩]⟩, none) := by
    norm_num [checkout_carts, findOpenCart, applyClampedWrites, clampedLoop, updateVariant]
  exact ⟨(checkout_idempotent _ _ hcount h1).1,
    (checkout_idempotent _ _ hcount h1).2 _ _ 0 0 0 0 hcount hu⟩

/-- C2 counterexample: the `carts` checkout performs no stock
re-validation — with stock 2 and a requested qty of 5 it still succeeds
and creates an order, rather than failing with a stock error and making
no changes, so the claim is false for that implementation. -/
theorem checkout_stock_recheck_cex :
    (checkout_carts ⟨[⟨"A", 10, none, 2⟩], [⟨CartStatus.statusOpen, [⟨0, 5, 10⟩]⟩],
        [], []⟩ 0 0).2 = none
    ∧ (checkout_carts ⟨[⟨"A", 10, none, 2⟩], [⟨CartStatus.statusOpen, [⟨0, 5, 10⟩]⟩],
        [], []⟩ 0 0).1.orders.length = 1
    ∧ ((2 : ℤ) < 5) := by
  refine ⟨?_, ?_, by norm_num⟩ <;>
    norm_num [checkout_carts, findOpenCart, applyClampedWrites, clampedLoop, updateVariant]

/-- C2 (amended): in the `ecommerce` implementation, whenever some cart
item's qty exceeds its variant's current stock, checkout fails with a
stock error carrying the offending variant's sku and available stock and
the world is left completely unchanged (cart open and reusable); the
`carts` implementation never re-checks stock — any checkout of a
non-empty open cart succeeds. -/
theorem checkout_stock_recheck_amended (w : World)
    (hshort : ∃ it ∈ ecomOpenItems w,
      (w.variants.getD it.variant default).stock < it.qty) :
    (∃ it ∈ ecomOpenItems w,
      (w.variants.getD it.variant default).stock < it.qty
      ∧ checkout_ecommerce w
          = (w, some (CheckoutError.insufficientStock
              (w.variants.getD it.variant default).sku
              (w.variants.getD it.variant default).stock)))
    ∧ (∀ (u : World) (ci : ℕ) (sh tx : ℚ), findOpenCart u.carts = some ci →
        (u.carts.getD ci default).items ≠ [] → (checkout_carts u sh tx).2 = none) := by
  constructor
  · have hne : ecomOpenItems w ≠ [] := by
      rcases hshort with ⟨it, hit, _⟩
      intro he
      rw [he] at hit
      cases hit
    obtain ⟨ci, hf, hgc⟩ := get_or_create_cart_nonempty w.carts hne
    have hitems : ecomOpenItems w = (w.carts.getD ci default).items := by
      unfold ecomOpenItems
      rw [hgc]
    rw [hitems] at hshort hne ⊢
    obtain ⟨it, hit, hlt, hval⟩ := validateStock_offender w.variants _ hshort
    refine ⟨it, hit, hlt, ?_⟩
    simp only [checkout_ecommerce, get_or_create_cart, hf]
    rw [if_neg hne, hval]
  · intro u ci sh tx hfind hne
    simp only [checkout_carts, hfind]
    rw [if_neg hne]

/-- C2 witness: the amended statement at a world whose open cart requests
qty 5 of a variant with stock 2: the `ecommerce` checkout fails with the
stock error naming sku "A" and available 2 while the world is unchanged,
and the `carts` checkout of any non-empty open cart succeeds. -/
theorem checkout_stock_recheck_amended_witness :
    (∃ it ∈ ecomOpenItems ⟨[⟨"A", 10, none, 2⟩],
        [⟨CartStatus.statusOpen, [⟨0, 5, 10⟩]⟩], [], []⟩,
      ((⟨[⟨"A", 10, none, 2⟩], [⟨CartStatus.statusOpen, [⟨0, 5, 10⟩]⟩], [], []⟩ :
          World).variants.getD it.variant default).stock < it.qty
      ∧ checkout_ecommerce ⟨[⟨"A", 10, none, 2⟩],
          [⟨CartStatus.statusOpen, [⟨0, 5, 10⟩]⟩], [], []⟩
          = (⟨[⟨"A", 10, none, 2⟩], [⟨CartStatus.statusOpen, [⟨0, 5, 10⟩]⟩], [], []⟩,
             some (CheckoutError.insufficientStock
              ((⟨[⟨"A", 10, none, 2⟩], [⟨CartStatus.statusOpen, [⟨0, 5, 10⟩]⟩], [], []⟩ :
                  World).variants.getD it.variant default).sku
              ((⟨[⟨"A", 10, none, 2⟩], [⟨CartStatus.statusOpen, [⟨0, 5, 10⟩]⟩], [], []⟩ :
                  World).variants.getD it.variant default).stock)))
    ∧ (∀ (u : World) (ci : ℕ) (sh tx : ℚ), findOpenCart u.carts = some ci →
        (u.carts.getD ci default).items ≠ [] → (checkout_carts u sh tx).2 = none) :=
  checkout_stock_recheck_amended
    ⟨[⟨"A", 10, none, 2⟩], [⟨CartStatus.statusOpen, [⟨0, 5, 10⟩]⟩], [], []⟩
    ⟨⟨0, 5, 10⟩,
      by norm_num [ecomOpenItems, get_or_create_cart, findOpenCart],
      by norm_num⟩

/-- C1 counterexample: a `carts` checkout of qty 5 against stock 2
succeeds and clamps the stock at 0 — but the claimed reconciliation
requires stock-after = stock-before − qty = −3 ≠ 0, so the invariant is
false for that (successful) checkout. -/
theorem checkout_reconciliation_cex :
    (checkout_carts ⟨[⟨"A", 10, none, 2⟩], [⟨CartStatus.statusOpen, [⟨0, 5, 10⟩]⟩],
        [], []⟩ 0 0).2 = none
    ∧ ((checkout_carts ⟨[⟨"A", 10, none, 2⟩], [⟨CartStatus.statusOpen, [⟨0, 5, 10⟩]⟩],
        [], []⟩ 0 0).1.variants.getD 0 default).stock = 0
    ∧ ((⟨[⟨"A", 10, none, 2⟩], [⟨CartStatus.statusOpen, [⟨0, 5, 10⟩]⟩], [], []⟩ :
        World).variants.getD 0 default).stock = 2
    ∧ ((0 : ℤ) ≠ 2 - 5) := by
  refine ⟨?_, ?_, by norm_num, by norm_num⟩ <;>
    norm_num [checkout_carts, findOpenCart, applyClampedWrites, clampedLoop, updateVariant]

/-- C1 (amended): for every successful `ecommerce` checkout whose cart
items reference distinct, existing variants, each touched variant's stock
drops by exactly that item's qty and the recorded movement changes sum to
minus the total quantity; for a successful `carts` checkout the movement
sum identity also holds, but each touched variant's stock becomes
`max 0 (stock − qty)`, which equals `stock − qty` only when the stock was
sufficient. -/
theorem checkout_reconciliation_amended
    (w w' : World) (h : checkout_ecommerce w = (w', none))
    (hvalid : ∀ it ∈ ecomOpenItems w, it.variant < w.variants.length)
    (hnd : ((ecomOpenItems w).map CartItem.variant).Nodup)
    (u u' : World) (sh tx : ℚ) (hu : checkout_carts u sh tx = (u', none))
    (huvalid : ∀ it ∈ cartsOpenItems u, it.variant < u.variants.length)
    (hund : ((cartsOpenItems u).map CartItem.variant).Nodup) :
    (∀ it ∈ ecomOpenItems w,
        (w'.variants.getD it.variant default).stock
          = (w.variants.getD it.variant default).stock - it.qty)
    ∧ ((w'.movements.drop w.movements.length).map Movement.change).sum
        = -(((ecomOpenItems w).map CartItem.qty).sum)
    ∧ (∀ it ∈ cartsOpenItems u,
        (u'.variants.getD it.variant default).stock
          = max 0 ((u.variants.getD it.variant default).stock - it.qty))
    ∧ ((u'.movements.drop u.movements.length).map Movement.change).sum
        = -(((cartsOpenItems u).map CartItem.qty).sum) := by
  obtain ⟨ci, hf, hne, hvs, hvars, hcarts, ⟨o, ho⟩, hmov⟩ :=
    checkout_ecommerce_ok_spec w w' h
  have hitems : ecomOpenItems w = (w.carts.getD ci default).items := by
    unfold ecomOpenItems
    rw [get_or_create_cart_found w.carts ci hf]
  obtain ⟨cj, huf, hune, huvars, hucarts, ⟨o2, huo⟩, humov⟩ :=
    checkout_carts_ok_spec u u' sh tx hu
  have huitems : cartsOpenItems u = (u.carts.getD cj default).items := by
    unfold cartsOpenItems
    rw [huf]
  rw [← hitems] at hvars hmov
  rw [← huitems] at huvars humov
  refine ⟨?_, ?_, ?_, ?_⟩
  · intro it hit
    rw [hvars, applyDecrements,
      getElemD_decrementsLoop_mem (ecomOpenItems w) w.variants it hit hnd (hvalid it hit)]
  · rw [hmov, List.drop_left]
    exact sum_map_change_sale (ecomOpenItems w)
  · intro it hit
    rw [huvars, applyClampedWrites,
      getElemD_clampedLoop_mem u.variants (cartsOpenItems u) u.variants it hit hund
        (huvalid it hit)]
  · rw [humov, List.drop_left]
    exact sum_map_change_sale (cartsOpenItems u)

/-- C1 witness: the amended reconciliation statement at one-variant
worlds (stock 5, cart qty 3) for which both checkouts succeed: stock
drops from 5 to 2 and the single recorded movement change sums to −3. -/
theorem checkout_reconciliation_amended_witness :
    (∀ it ∈ ecomOpenItems ⟨[⟨"A", 10, none, 5⟩], [⟨.statusOpen, [⟨0, 3, 10⟩]⟩], [], []⟩,
        (((⟨[⟨"A", 10, none, 2⟩], [⟨.statusConverted, [⟨0, 3, 10⟩]⟩],
            [⟨30, 0, 0, 0, 30, [⟨0, 3, 10, 30⟩]⟩], [⟨0, -3, "sale"⟩]⟩ : World).variants.getD
              it.variant default).stock
          = (((⟨[⟨"A", 10, none, 5⟩], [⟨.statusOpen, [⟨0, 3, 10⟩]⟩], [], []⟩ :
              World).variants.getD it.variant default)).stock - it.qty))
    ∧ (((⟨[⟨"A", 10, none, 2⟩], [⟨.statusConverted, [⟨0, 3, 10⟩]⟩],
          [⟨30, 0, 0, 0, 30, [⟨0, 3, 10, 30⟩]⟩], [⟨0, -3, "sale"⟩]⟩ : World).movements.drop
            (⟨[⟨"A", 10, none, 5⟩], [⟨.statusOpen, [⟨0, 3, 10⟩]⟩], [], []⟩ :
              World).movements.length).map Movement.change).sum
        = -(((ecomOpenItems ⟨[⟨"A", 10, none, 5⟩], [⟨.statusOpen, [⟨0, 3, 10⟩]⟩], [], []⟩).map
            CartItem.qty).sum)
    ∧ (∀ it ∈ cartsOpenItems ⟨[⟨"A", 10, none, 5⟩], [⟨.statusOpen, [⟨0, 3, 10⟩]⟩], [], []⟩,
        (((⟨[⟨"A", 10, none, 2⟩], [⟨.statusConverted, [⟨0, 3, 10⟩]⟩],
            [⟨30, 0, 0, 0, 30, [⟨0, 3, 10, 30⟩]⟩], [⟨0, -3, "sale"⟩]⟩ : World).variants.getD
              it.variant default).stock
          = max 0 ((((⟨[⟨"A", 10, none, 5⟩], [⟨.statusOpen, [⟨0, 3, 10⟩]⟩], [], []⟩ :
              World).variants.getD it.variant default)).stock - it.qty)))
    ∧ (((⟨[⟨"A", 10, none, 2⟩], [⟨.statusConverted, [⟨0, 3, 10⟩]⟩],
          [⟨30, 0, 0, 0, 30, [⟨0, 3, 10, 30⟩]⟩], [⟨0, -3, "sale"⟩]⟩ : World).movements.drop
            (⟨[⟨"A", 10, none, 5⟩], [⟨.statusOpen, [⟨0, 3, 10⟩]⟩], [], []⟩ :
              World).movements.length).map Movement.change).sum
        = -(((cartsOpenItems ⟨[⟨"A", 10, none, 5⟩], [⟨.statusOpen, [⟨0, 3, 10⟩]⟩], [], []⟩).map
            CartItem.qty).sum) := by
  have h1 : checkout_ecommerce ⟨[⟨"A", 10, none, 5⟩], [⟨.statusOpen, [⟨0, 3, 10⟩]⟩], [], []⟩
      = (⟨[⟨"A", 10, none, 2⟩], [⟨.statusConverted, [⟨0, 3, 10⟩]⟩],
          [⟨30, 0, 0, 0, 30, [⟨0, 3, 10, 30⟩]⟩], [⟨0, -3, "sale"⟩]⟩, none) := by
    norm_num [checkout_ecommerce, get_or_create_cart, findOpenCart, validateStock,
      applyDecrements, decrementsLoop, updateVariant, CartItem.line_total]
  have hu : checkout_carts ⟨[⟨"A", 10, none, 5⟩], [⟨.statusOpen, [⟨0, 3, 10⟩]⟩], [], []⟩ 0 0
      = (⟨[⟨"A", 10, none, 2⟩], [⟨.statusConverted, [⟨0, 3, 10⟩]⟩],
          [⟨30, 0, 0, 0, 30, [⟨0, 3, 10, 30⟩]⟩], [⟨0, -3, "sale"⟩]⟩, none) := by
    norm_num [checkout_carts, findOpenCart, applyClampedWrites, clampedLoop, updateVariant]
  have hev : ecomOpenItems ⟨[⟨"A", 10, none, 5⟩], [⟨.statusOpen, [⟨0, 3, 10⟩]⟩], [], []⟩
      = [⟨0, 3, 10⟩] := by
    norm_num [ecomOpenItems, get_or_create_cart, findOpenCart]
  have hcv : cartsOpenItems ⟨[⟨"A", 10, none, 5⟩], [⟨.statusOpen, [⟨0, 3, 10⟩]⟩], [], []⟩
      = [⟨0, 3, 10⟩] := by
    norm_num [cartsOpenItems, findOpenCart]
  exact checkout_reconciliation_amended _ _ h1
    (by rw [hev]; intro it hit; simp at hit; simp [hit])
    (by rw [hev]; simp)
    _ _ 0 0 hu
    (by rw [hcv]; intro it hit; simp at hit; simp [hit])
    (by rw [hcv]; simp)

end FFEcom
